import Mathlib

/-!
Verification of the market-maker-keeper control loops.

This file gives a shallow embedding of the three keeper modules
(`etoro_market_maker_keeper.py`, `kraken_market_maker_keeper.py`,
`uniswap_market_maker_keeper.py`) and proves properties of their
per-tick reconciliation logic.

Modelling conventions: Python numbers (floats and `Wad` fixed-point
values) are modelled as exact rationals `ℚ`; liquidity-token balances
returned by the exchange contract (Python ints) as `ℤ`; Python strings
as `String`.  A Python expression that can raise an exception is
modelled with `Option` (`none` = the exception propagates and the tick
aborts).  The pricing policy (`Bands`) and the order-book manager are
external collaborators: they are modelled abstractly, as a structure
of function parameters, respectively as an oracle over scheduled tasks.
-/

namespace MarketMakerKeeper

/-- An open order as reported by the venue adapter (`pyexchange` `Order`):
identifier, side, price, amount, and the pay-side amount the order locks
(the quantity `Bands.total_amount` sums for it). -/
structure Order where
  orderId : String
  isSell : Bool
  price : ℚ
  amount : ℚ
  payAmount : ℚ
  deriving DecidableEq, Repr

/-- A policy-generated order not yet submitted (`band.NewOrder`):
side, price, pay amount and buy amount. -/
structure NewOrder where
  isSell : Bool
  price : ℚ
  payAmount : ℚ
  buyAmount : ℚ
  deriving DecidableEq, Repr

/-- The snapshot returned by `OrderBookManager.get_order_book()`: open
orders, raw balances (an association of currency symbol to amount), and
the two pending-operation flags. -/
structure OrderBook where
  orders : List Order
  balances : List (String × ℚ)
  ordersBeingPlaced : Bool
  ordersBeingCancelled : Bool
  deriving DecidableEq, Repr

/-- The pricing policy consumed by `synchronize_orders`: the two `Bands`
methods the keepers call.  It is an external collaborator, so it is kept
abstract as a pair of function parameters. -/
structure BandsModel where
  cancellableOrders : List Order → List Order → ℚ → List Order
  newOrders : List Order → List Order → ℚ → ℚ → ℚ → List NewOrder

/-- `our_sell_orders`: the orders of the snapshot whose side is sell.
Identical in the eToro and Kraken keepers. -/
def ourSellOrders (ourOrders : List Order) : List Order :=
  ourOrders.filter fun order => order.isSell

/-- `our_buy_orders`: the orders of the snapshot whose side is not sell.
Identical in the eToro and Kraken keepers. -/
def ourBuyOrders (ourOrders : List Order) : List Order :=
  ourOrders.filter fun order => !order.isSell

/-- `KrakenMarketMakerKeeper.token_sell`: `self.arguments.pair[:3]`. -/
def tokenSellKraken (pair : String) : String :=
  String.mk (pair.data.take 3)

/-- `KrakenMarketMakerKeeper.token_buy`: `self.arguments.pair[3:]`. -/
def tokenBuyKraken (pair : String) : String :=
  String.mk (pair.data.drop 3)

/-- Python's `str.split(sep)` for a one-character separator: the
segments between occurrences of the separator, empty segments kept,
`[""]` for the empty string. -/
def splitOnChar (sep : Char) (l : List Char) : List (List Char) :=
  match l with
  | [] => [[]]
  | x :: xs =>
    match splitOnChar sep xs with
    | [] => if x = sep then [[], []] else [[x]]
    | r :: rs => if x = sep then [] :: r :: rs else (x :: r) :: rs

/-- Python's `str.lower()`: lowercase every character. -/
def lowerString (s : String) : String :=
  String.mk (s.data.map Char.toLower)

/-- `EToroMarketMakerKeeper.token_sell`: `pair.split('_')[0].lower()`.
The index `[0]` of a Python `split` result always exists. -/
def tokenSellEtoro (pair : String) : Option String :=
  ((splitOnChar (Char.ofNat 95) pair.data).get? 0).map fun part =>
    lowerString (String.mk part)

/-- `EToroMarketMakerKeeper.token_buy`: `pair.split('_')[1].lower()`;
`none` models the `IndexError` raised when the pair has no underscore. -/
def tokenBuyEtoro (pair : String) : Option String :=
  ((splitOnChar (Char.ofNat 95) pair.data).get? 1).map fun part =>
    lowerString (String.mk part)

/-- `EToroMarketMakerKeeper._join_string`:
`"".join(string.split('_')).lower()`. -/
def joinString (s : String) : String :=
  lowerString (String.mk (splitOnChar (Char.ofNat 95) s.data).flatten)

/-- `EToroMarketMakerKeeper.our_available_balance`:
`list(filter(lambda x: x['currency'] == token, our_balances))[0]['balance']`.
`none` models the `IndexError` raised by `[0]` when no balance entry
matches the requested token. -/
def ourAvailableBalanceEtoro (ourBalances : List (String × ℚ)) (token : String) :
    Option ℚ :=
  match ourBalances.filter (fun x => x.1 = token) with
  | [] => none
  | b :: _ => some b.2

/-- `KrakenMarketMakerKeeper.our_available_balance`: walk `self.assets`
(an association of Kraken symbol to its `altname`) and return the raw
balance of the first symbol whose altname is the requested token and
which occurs in the balances mapping; `0` when none does. -/
def ourAvailableBalanceKraken (assets : List (String × String))
    (ourBalances : List (String × ℚ)) (token : String) : ℚ :=
  match assets with
  | [] => 0
  | (symbol, altname) :: rest =>
    if altname = token then
      match ourBalances.lookup symbol with
      | some b => b
      | none => ourAvailableBalanceKraken rest ourBalances token
    else
      ourAvailableBalanceKraken rest ourBalances token

/-- Modelled from the spec: `Bands.total_amount` (in `band.py`, which is
not among the provided sources) — "`locked(currency)` sums the pay-side
amount of every currently open order that consumes that currency". -/
def totalAmount (orders : List Order) : ℚ :=
  (orders.map Order.payAmount).sum

/-- The effect of one `synchronize_orders` tick: issue cancellations,
end the tick with no adapter call, or hand a batch of new orders to
`place_orders`. -/
inductive TickAction where
  | cancel (orders : List Order)
  | skip
  | place (orders : List NewOrder)
  deriving DecidableEq, Repr

/-- The cancellations issued by a tick action. -/
def cancelsOf : TickAction → List Order
  | TickAction.cancel orders => orders
  | TickAction.skip => []
  | TickAction.place _ => []

/-- The new orders handed to `place_orders` by a tick action. -/
def placementsOf : TickAction → List NewOrder
  | TickAction.cancel _ => []
  | TickAction.skip => []
  | TickAction.place orders => orders

/-- The placements of an aborted (`none`) or completed tick. -/
def placementsOfOpt : Option TickAction → List NewOrder
  | some a => placementsOf a
  | none => []

/-- The cancellations of an aborted (`none`) or completed tick. -/
def cancelsOfOpt : Option TickAction → List Order
  | some a => cancelsOf a
  | none => []

/-- The buy-side balance the Kraken keeper hands to `Bands.new_orders`:
`our_available_balance(balances, token_buy()) - Bands.total_amount(our_buy_orders)`. -/
def krakenBuyBalance (assets : List (String × String)) (book : OrderBook)
    (pair : String) : ℚ :=
  ourAvailableBalanceKraken assets book.balances (tokenBuyKraken pair) -
    totalAmount (ourBuyOrders book.orders)

/-- The sell-side balance the Kraken keeper hands to `Bands.new_orders`:
`our_available_balance(balances, token_sell()) - Bands.total_amount(our_sell_orders)`. -/
def krakenSellBalance (assets : List (String × String)) (book : OrderBook)
    (pair : String) : ℚ :=
  ourAvailableBalanceKraken assets book.balances (tokenSellKraken pair) -
    totalAmount (ourSellOrders book.orders)

/-- `KrakenMarketMakerKeeper.synchronize_orders`: cancel the policy's
cancellable set if non-empty; otherwise skip while a prior operation is
unconfirmed; otherwise hand the policy's new orders (computed from the
locked-amount-adjusted balances) to `place_orders`. -/
def synchronizeOrdersKraken (bands : BandsModel) (assets : List (String × String))
    (book : OrderBook) (pair : String) (targetPrice : ℚ) : TickAction :=
  let cancellableOrders :=
    bands.cancellableOrders (ourBuyOrders book.orders) (ourSellOrders book.orders)
      targetPrice
  if 0 < cancellableOrders.length then
    TickAction.cancel cancellableOrders
  else if book.ordersBeingPlaced || book.ordersBeingCancelled then
    TickAction.skip
  else
    TickAction.place
      (bands.newOrders (ourBuyOrders book.orders) (ourSellOrders book.orders)
        (krakenBuyBalance assets book pair) (krakenSellBalance assets book pair)
        targetPrice)

/-- `EToroMarketMakerKeeper.synchronize_orders`: same cancel-then-gate
structure; the available balances are read directly from the snapshot
(no locked-amount subtraction), and a balance lookup or pair split that
raises aborts the tick (`none`). -/
def synchronizeOrdersEtoro (bands : BandsModel) (book : OrderBook)
    (pair : String) (targetPrice : ℚ) : Option TickAction :=
  let cancellableOrders :=
    bands.cancellableOrders (ourBuyOrders book.orders) (ourSellOrders book.orders)
      targetPrice
  if 0 < cancellableOrders.length then
    some (TickAction.cancel cancellableOrders)
  else if book.ordersBeingPlaced || book.ordersBeingCancelled then
    some TickAction.skip
  else
    match tokenBuyEtoro pair, tokenSellEtoro pair with
    | some tokenBuy, some tokenSell =>
      match ourAvailableBalanceEtoro book.balances tokenBuy,
            ourAvailableBalanceEtoro book.balances tokenSell with
      | some buyBalance, some sellBalance =>
        some (TickAction.place
          (bands.newOrders (ourBuyOrders book.orders) (ourSellOrders book.orders)
            buyBalance sellBalance targetPrice))
      | _, _ => none
    | _, _ => none

/-- A placement request submitted to `etoro_api.place_order` by one
scheduled eToro submission task: the joined pair, the side string, the
price, and the side-dependent amount. -/
structure EtoroPlaceRequest where
  pair : String
  side : String
  price : ℚ
  amount : ℚ
  deriving DecidableEq, Repr

/-- A placement request submitted to `kraken_api.place_order` by one
scheduled Kraken submission task: pair, side flag, precision-rounded
price, and the side-dependent amount. -/
structure KrakenPlaceRequest where
  pair : String
  isSell : Bool
  price : ℚ
  amount : ℚ
  deriving DecidableEq, Repr

/-- Python's `round` on a value carrying `ndigits` decimal places:
round half to even at the last kept digit. -/
def roundHalfEven (q : ℚ) : ℤ :=
  if q - ⌊q⌋ < 1 / 2 then ⌊q⌋
  else if 1 / 2 < q - ⌊q⌋ then ⌊q⌋ + 1
  else if ⌊q⌋ % 2 = 0 then ⌊q⌋ else ⌊q⌋ + 1

/-- `round(price, self.pair_precision)` in `KrakenMarketMakerKeeper.place_orders`. -/
def krakenRoundPrice (pairPrecision : ℕ) (price : ℚ) : ℚ :=
  (roundHalfEven (price * 10 ^ pairPrecision) : ℚ) / 10 ^ pairPrecision

/-- The request built by the eToro `place_order_function` closure for the
order value it captured: amount is `pay_amount` when selling and
`buy_amount` when buying, side is the matching string, pair is joined. -/
def etoroPlaceRequest (pair : String) (newOrderToBePlaced : NewOrder) :
    EtoroPlaceRequest :=
  { pair := joinString pair
    side := if newOrderToBePlaced.isSell then "sell" else "buy"
    price := newOrderToBePlaced.price
    amount := if newOrderToBePlaced.isSell then newOrderToBePlaced.payAmount
              else newOrderToBePlaced.buyAmount }

/-- The request built by the Kraken `place_order_function` closure for
the order value it captured: the price is rounded to the market's
`pair_decimals`. -/
def krakenPlaceRequest (pairPrecision : ℕ) (pair : String)
    (newOrderToBePlaced : NewOrder) : KrakenPlaceRequest :=
  { pair := pair
    isSell := newOrderToBePlaced.isSell
    price := krakenRoundPrice pairPrecision newOrderToBePlaced.price
    amount := if newOrderToBePlaced.isSell then newOrderToBePlaced.payAmount
              else newOrderToBePlaced.buyAmount }

/-- `EToroMarketMakerKeeper.place_orders`: the loop
`for new_order in new_orders:` schedules, via
`lambda new_order=new_order: place_order_function(new_order)`, one task
per generated order; the default-argument idiom binds each task to the
loop variable's value at scheduling time, so the task list accumulated
in scheduling order carries each order's own request. -/
def placeOrdersEtoro (pair : String) (newOrders : List NewOrder) :
    List EtoroPlaceRequest :=
  newOrders.foldl (fun scheduled newOrder =>
    scheduled ++ [etoroPlaceRequest pair newOrder]) []

/-- `KrakenMarketMakerKeeper.place_orders`: same scheduling loop with the
same per-iteration default-argument binding. -/
def placeOrdersKraken (pairPrecision : ℕ) (pair : String)
    (newOrders : List NewOrder) : List KrakenPlaceRequest :=
  newOrders.foldl (fun scheduled newOrder =>
    scheduled ++ [krakenPlaceRequest pairPrecision pair newOrder]) []

/-- Modelled from the spec: `OrderBookManager.place_order` (in
`order_book.py`, which is not among the provided sources) hands each
scheduled task to a worker pool that executes every task independently,
so the failure of one submission does not prevent the others from being
attempted.  `exec` is the venue's verdict on each request; the result
pairs every scheduled request with its outcome. -/
def runScheduledTasks {α : Type} (execOutcome : α → Bool) (tasks : List α) :
    List (α × Bool) :=
  tasks.map fun task => (task, execOutcome task)

/-- One action the Uniswap rebalancing tick can attempt: a deposit of a
given ETH amount or a withdrawal of a given number of liquidity tokens. -/
inductive PoolAction where
  | add (ethAmount : ℚ)
  | remove (liquidityTokens : ℤ)
  deriving DecidableEq, Repr

/-- `UniswapMarketMakerKeeper.place_liquidity`: compute the threshold
`diff = feed_price * percentage_difference / 100`, compare it with the
deviation `|feed_price - uniswap_price|`, and attempt the add and/or
remove branch actions accordingly.  The result lists the on-chain
actions the tick attempts, in program order. -/
def placeLiquidity (percentageDifference feedPrice uniswapPrice
    ethBalance tokenBalance : ℚ) (currentLiquidityTokens : ℤ) :
    List PoolAction :=
  let diff := feedPrice * percentageDifference / 100
  let addLiquidity := |feedPrice - uniswapPrice| < diff
  let removeLiquidity := diff < |feedPrice - uniswapPrice|
  (if addLiquidity then
    let ethBalanceNoGas := ethBalance - 2 / 100
    let liquidityToAdd := ethBalanceNoGas
    let ethAmountToAdd := min liquidityToAdd (tokenBalance * 95 / 100 / uniswapPrice)
    if 0 < liquidityToAdd ∧ currentLiquidityTokens = 0 then
      [PoolAction.add ethAmountToAdd]
    else []
  else []) ++
  (if removeLiquidity then
    let liquidityToRemove := currentLiquidityTokens
    if 0 < liquidityToRemove then
      [PoolAction.remove liquidityToRemove]
    else []
  else [])

/-- The deposits attempted by a rebalancing tick. -/
def addActions (actions : List PoolAction) : List ℚ :=
  actions.filterMap fun a =>
    match a with
    | PoolAction.add e => some e
    | PoolAction.remove _ => none

/-- The withdrawals attempted by a rebalancing tick. -/
def removeActions (actions : List PoolAction) : List ℤ :=
  actions.filterMap fun a =>
    match a with
    | PoolAction.add _ => none
    | PoolAction.remove t => some t

/-! Concrete fixtures used by witnesses and counterexamples. -/

/-- A concrete resting buy order. -/
def orderBuy1 : Order :=
  { orderId := "b1", isSell := false, price := 10, amount := 1, payAmount := 10 }

/-- A concrete resting sell order. -/
def orderSell1 : Order :=
  { orderId := "s1", isSell := true, price := 12, amount := 1, payAmount := 1 }

/-- A concrete policy that declares every resting order cancellable and
generates no new orders. -/
def bandsCancelAll : BandsModel :=
  { cancellableOrders := fun buys sells _ => buys ++ sells
    newOrders := fun _ _ _ _ _ => [] }

/-- A concrete policy that never cancels and reports the balances it was
handed inside a single generated order (price = buy balance, pay amount
= sell balance), making the balance inputs observable in the tick result. -/
def bandsProbe : BandsModel :=
  { cancellableOrders := fun _ _ _ => []
    newOrders := fun _ _ buyBalance sellBalance _ =>
      [{ isSell := false, price := buyBalance, payAmount := sellBalance,
         buyAmount := 0 }] }

/-! ## C1: cancellations take strict precedence over placements -/

/-- Claim C1: on any tick of either order-book keeper, if the policy's
`cancellable_orders` result is non-empty, the tick issues cancellations
for exactly that set and performs no placement. -/
theorem cancel_precedes_place (bands : BandsModel)
    (assets : List (String × String)) (bookK bookE : OrderBook)
    (pairK pairE : String) (tpK tpE : ℚ)
    (hK : bands.cancellableOrders (ourBuyOrders bookK.orders)
      (ourSellOrders bookK.orders) tpK ≠ [])
    (hE : bands.cancellableOrders (ourBuyOrders bookE.orders)
      (ourSellOrders bookE.orders) tpE ≠ []) :
    synchronizeOrdersKraken bands assets bookK pairK tpK =
      TickAction.cancel (bands.cancellableOrders (ourBuyOrders bookK.orders)
        (ourSellOrders bookK.orders) tpK) ∧
    placementsOf (synchronizeOrdersKraken bands assets bookK pairK tpK) = [] ∧
    synchronizeOrdersEtoro bands bookE pairE tpE =
      some (TickAction.cancel (bands.cancellableOrders (ourBuyOrders bookE.orders)
        (ourSellOrders bookE.orders) tpE)) ∧
    placementsOfOpt (synchronizeOrdersEtoro bands bookE pairE tpE) = [] := by
  have hK2 : 0 < (bands.cancellableOrders (ourBuyOrders bookK.orders)
      (ourSellOrders bookK.orders) tpK).length := List.length_pos.mpr hK
  have hE2 : 0 < (bands.cancellableOrders (ourBuyOrders bookE.orders)
      (ourSellOrders bookE.orders) tpE).length := List.length_pos.mpr hE
  refine ⟨?_, ?_, ?_, ?_⟩ <;>
    simp [synchronizeOrdersKraken, synchronizeOrdersEtoro, hK2, hE2,
      placementsOf, placementsOfOpt]

/-- Witness for C1 at a concrete tick: one resting buy order, a policy
cancelling everything; both keepers cancel exactly that order. -/
theorem cancel_precedes_place_witness :
    synchronizeOrdersKraken bandsCancelAll [] ⟨[orderBuy1], [], false, false⟩
      "ethdai" 5 = TickAction.cancel [orderBuy1] ∧
    placementsOf (synchronizeOrdersKraken bandsCancelAll []
      ⟨[orderBuy1], [], false, false⟩ "ethdai" 5) = [] ∧
    synchronizeOrdersEtoro bandsCancelAll ⟨[orderBuy1], [], false, false⟩
      "eth_dai" 5 = some (TickAction.cancel [orderBuy1]) ∧
    placementsOfOpt (synchronizeOrdersEtoro bandsCancelAll
      ⟨[orderBuy1], [], false, false⟩ "eth_dai" 5) = [] :=
  cancel_precedes_place bandsCancelAll [] ⟨[orderBuy1], [], false, false⟩
    ⟨[orderBuy1], [], false, false⟩ "ethdai" "eth_dai" 5 5
    (by decide) (by decide)

/-! ## C2: the pending-operation gate -/

/-- Counterexample to claim C2 as stated: a tick whose snapshot has
`orders_being_placed = true` but whose policy reports a non-empty
cancellable set still issues a cancellation, because the cancel check
runs before the pending-operation gate. -/
theorem gating_counterexample :
    (OrderBook.mk [orderBuy1] [] true false).ordersBeingPlaced = true ∧
    cancelsOf (synchronizeOrdersKraken bandsCancelAll []
      (OrderBook.mk [orderBuy1] [] true false) "ethdai" 5) = [orderBuy1] ∧
    [orderBuy1] ≠ ([] : List Order) := by
  refine ⟨rfl, by decide, by decide⟩

/-- Claim C2 amended: if `orders_being_placed` or `orders_being_cancelled`
is true, the tick performs no placement; it may still cancel, because the
cancellable-orders check precedes the gate, and when the cancellable set
is empty it ends the tick with no action at all. -/
theorem gating_blocks_placements (bands : BandsModel)
    (assets : List (String × String)) (bookK bookE : OrderBook)
    (pairK pairE : String) (tpK tpE : ℚ)
    (hK : bookK.ordersBeingPlaced = true ∨ bookK.ordersBeingCancelled = true)
    (hE : bookE.ordersBeingPlaced = true ∨ bookE.ordersBeingCancelled = true) :
    placementsOf (synchronizeOrdersKraken bands assets bookK pairK tpK) = [] ∧
    placementsOfOpt (synchronizeOrdersEtoro bands bookE pairE tpE) = [] ∧
    (bands.cancellableOrders (ourBuyOrders bookK.orders)
        (ourSellOrders bookK.orders) tpK = [] →
      synchronizeOrdersKraken bands assets bookK pairK tpK = TickAction.skip) ∧
    (bands.cancellableOrders (ourBuyOrders bookE.orders)
        (ourSellOrders bookE.orders) tpE = [] →
      synchronizeOrdersEtoro bands bookE pairE tpE = some TickAction.skip) := by
  have hK2 : (bookK.ordersBeingPlaced || bookK.ordersBeingCancelled) = true := by
    rcases hK with h | h <;> simp [h]
  have hE2 : (bookE.ordersBeingPlaced || bookE.ordersBeingCancelled) = true := by
    rcases hE with h | h <;> simp [h]
  refine ⟨?_, ?_, ?_, ?_⟩
  · by_cases hc : 0 < (bands.cancellableOrders (ourBuyOrders bookK.orders)
        (ourSellOrders bookK.orders) tpK).length <;>
      simp [synchronizeOrdersKraken, hc, hK2, placementsOf]
  · by_cases hc : 0 < (bands.cancellableOrders (ourBuyOrders bookE.orders)
        (ourSellOrders bookE.orders) tpE).length <;>
      simp [synchronizeOrdersEtoro, hc, hE2, placementsOfOpt, placementsOf]
  · intro hc
    simp [synchronizeOrdersKraken, hc, hK2]
  · intro hc
    simp [synchronizeOrdersEtoro, hc, hE2]

/-- Witness for the amended C2 at a concrete tick: flag set, empty
cancellable set; both keepers end the tick with no action. -/
theorem gating_blocks_placements_witness :
    placementsOf (synchronizeOrdersKraken bandsProbe []
      ⟨[orderBuy1], [], true, false⟩ "ethdai" 5) = [] ∧
    placementsOfOpt (synchronizeOrdersEtoro bandsProbe
      ⟨[orderBuy1], [], true, false⟩ "eth_dai" 5) = [] ∧
    synchronizeOrdersKraken bandsProbe [] ⟨[orderBuy1], [], true, false⟩
      "ethdai" 5 = TickAction.skip ∧
    synchronizeOrdersEtoro bandsProbe ⟨[orderBuy1], [], true, false⟩
      "eth_dai" 5 = some TickAction.skip := by
  have h := gating_blocks_placements bandsProbe []
    ⟨[orderBuy1], [], true, false⟩ ⟨[orderBuy1], [], true, false⟩
    "ethdai" "eth_dai" 5 5 (Or.inl rfl) (Or.inl rfl)
  exact ⟨h.1, h.2.1, h.2.2.1 (by decide), h.2.2.2 (by decide)⟩

/-! ## C3: the balance handed to the policy -/

/-- Counterexample to claim C3 as stated: Kraken reports a raw DAI
balance of 4 while the resting buy order locks 10, so the buy-side
balance handed to `Bands.new_orders` is `4 - 10 = -6`, not
`max(4 - 10, 0) = 0`; the subtraction is not clamped at zero and the
probe policy observes the negative value. -/
theorem available_balance_counterexample :
    krakenBuyBalance [("ZDAI", "dai")]
      ⟨[orderBuy1], [("ZDAI", 4)], false, false⟩ "ethdai" = -6 ∧
    max ((4 : ℚ) - 10) 0 = 0 ∧ ((-6 : ℚ) ≠ 0) ∧
    synchronizeOrdersKraken bandsProbe [("ZDAI", "dai")]
      ⟨[orderBuy1], [("ZDAI", 4)], false, false⟩ "ethdai" 5 =
      TickAction.place [⟨false, -6, 0, 0⟩] := by
  refine ⟨?_, ?_, by norm_num, ?_⟩
  · norm_num [krakenBuyBalance, ourAvailableBalanceKraken, totalAmount,
      ourBuyOrders, tokenBuyKraken, orderBuy1, List.lookup]
  · norm_num
  · norm_num +decide [synchronizeOrdersKraken, bandsProbe, krakenBuyBalance,
      krakenSellBalance, ourAvailableBalanceKraken, totalAmount, ourBuyOrders,
      ourSellOrders, tokenBuyKraken, tokenSellKraken, orderBuy1, List.lookup]

/-- Claim C3 amended: on a tick that reaches order placement, the Kraken
keeper hands the policy `raw - locked` for each side, with no clamping
at zero (so the value can be negative), where `locked` is
`Bands.total_amount` of the same-side open orders; the eToro keeper
hands the policy the raw reported balance unchanged (its venue already
excludes locked amounts, so `locked` is zero there). -/
theorem available_balance_amended (bands : BandsModel)
    (assets : List (String × String)) (bookK bookE : OrderBook)
    (pairK pairE : String) (tpK tpE : ℚ) (tb ts : String) (bb sb : ℚ)
    (hK1 : bands.cancellableOrders (ourBuyOrders bookK.orders)
      (ourSellOrders bookK.orders) tpK = [])
    (hK2 : bookK.ordersBeingPlaced = false)
    (hK3 : bookK.ordersBeingCancelled = false)
    (hE1 : bands.cancellableOrders (ourBuyOrders bookE.orders)
      (ourSellOrders bookE.orders) tpE = [])
    (hE2 : bookE.ordersBeingPlaced = false)
    (hE3 : bookE.ordersBeingCancelled = false)
    (hEb : tokenBuyEtoro pairE = some tb)
    (hEs : tokenSellEtoro pairE = some ts)
    (hBb : ourAvailableBalanceEtoro bookE.balances tb = some bb)
    (hBs : ourAvailableBalanceEtoro bookE.balances ts = some sb) :
    synchronizeOrdersKraken bands assets bookK pairK tpK =
      TickAction.place (bands.newOrders (ourBuyOrders bookK.orders)
        (ourSellOrders bookK.orders)
        (ourAvailableBalanceKraken assets bookK.balances (tokenBuyKraken pairK) -
          totalAmount (ourBuyOrders bookK.orders))
        (ourAvailableBalanceKraken assets bookK.balances (tokenSellKraken pairK) -
          totalAmount (ourSellOrders bookK.orders)) tpK) ∧
    synchronizeOrdersEtoro bands bookE pairE tpE =
      some (TickAction.place (bands.newOrders (ourBuyOrders bookE.orders)
        (ourSellOrders bookE.orders) bb sb tpE)) := by
  constructor
  · simp [synchronizeOrdersKraken, hK1, hK2, hK3, krakenBuyBalance,
      krakenSellBalance]
  · simp [synchronizeOrdersEtoro, hE1, hE2, hE3, hEb, hEs, hBb, hBs]

/-- Witness for the amended C3 at a concrete tick of each keeper. -/
theorem available_balance_amended_witness :
    synchronizeOrdersKraken bandsProbe [("ZDAI", "dai"), ("XETH", "eth")]
      ⟨[orderBuy1], [("ZDAI", 4), ("XETH", 3)], false, false⟩ "ethdai" 5 =
      TickAction.place (bandsProbe.newOrders (ourBuyOrders [orderBuy1])
        (ourSellOrders [orderBuy1])
        (ourAvailableBalanceKraken [("ZDAI", "dai"), ("XETH", "eth")]
          [("ZDAI", 4), ("XETH", 3)] (tokenBuyKraken "ethdai") -
          totalAmount (ourBuyOrders [orderBuy1]))
        (ourAvailableBalanceKraken [("ZDAI", "dai"), ("XETH", "eth")]
          [("ZDAI", 4), ("XETH", 3)] (tokenSellKraken "ethdai") -
          totalAmount (ourSellOrders [orderBuy1])) 5) ∧
    synchronizeOrdersEtoro bandsProbe
      ⟨[orderBuy1], [("dai", 7), ("eth", 3)], false, false⟩ "eth_dai" 5 =
      some (TickAction.place (bandsProbe.newOrders (ourBuyOrders [orderBuy1])
        (ourSellOrders [orderBuy1]) 7 3 5)) :=
  available_balance_amended bandsProbe [("ZDAI", "dai"), ("XETH", "eth")]
    ⟨[orderBuy1], [("ZDAI", 4), ("XETH", 3)], false, false⟩
    ⟨[orderBuy1], [("dai", 7), ("eth", 3)], false, false⟩
    "ethdai" "eth_dai" 5 5 "dai" "eth" 7 3
    (by decide) rfl rfl (by decide) rfl rfl
    (by decide) (by decide) (by decide) (by decide)

/-! ## C6: a currency absent from the raw balances -/

/-- Counterexample to claim C6 as stated: the eToro balance lookup for a
currency with no balance entry raises an `IndexError` (the `[0]` index
of an empty filter result), modelled as `none`, rather than yielding a
zero balance. -/
theorem absent_currency_counterexample :
    ourAvailableBalanceEtoro [("dai", 5)] "eth" = none ∧
    (none : Option ℚ) ≠ some 0 := by
  refine ⟨rfl, by decide⟩

/-- Claim C6 amended: the Kraken keeper yields a zero balance for a
currency absent from the venue-reported raw balances, but the eToro
keeper raises an error (the `[0]` index on an empty filter result)
instead of yielding zero. -/
theorem absent_currency_amended (assets : List (String × String))
    (balancesK balancesE : List (String × ℚ)) (tokenK tokenE : String)
    (hK : ∀ p ∈ assets, p.2 = tokenK → balancesK.lookup p.1 = none)
    (hE : balancesE.filter (fun x => x.1 = tokenE) = []) :
    ourAvailableBalanceKraken assets balancesK tokenK = 0 ∧
    ourAvailableBalanceEtoro balancesE tokenE = none := by
  constructor
  · induction assets with
    | nil => rfl
    | cons p rest ih =>
      obtain ⟨symbol, altname⟩ := p
      by_cases ha : altname = tokenK
      · have hl := hK ⟨symbol, altname⟩ (List.mem_cons_self _ _) ha
        simpa [ourAvailableBalanceKraken, ha, hl] using
          ih fun q hq hq2 => hK q (List.mem_cons_of_mem _ hq) hq2
      · simpa [ourAvailableBalanceKraken, ha] using
          ih fun q hq hq2 => hK q (List.mem_cons_of_mem _ hq) hq2
  · simp [ourAvailableBalanceEtoro, hE]

/-- Witness for the amended C6: concrete assets and balances in which
the requested currency is missing on both venues. -/
theorem absent_currency_amended_witness :
    ourAvailableBalanceKraken [("XETH", "eth"), ("ZUSD", "usd")]
      [("ZDAI", 5)] "eth" = 0 ∧
    ourAvailableBalanceEtoro [("dai", 5)] "btc" = none :=
  absent_currency_amended [("XETH", "eth"), ("ZUSD", "usd")]
    [("ZDAI", 5)] [("dai", 5)] "eth" "btc" (by decide) (by decide)

/-! ## C4: one independent submission task per generated order -/

/-- The scheduling loop accumulates one task per element, in order:
folding task-appending over a batch yields the batch's image. -/
lemma foldl_append_singleton {α β : Type} (f : α → β) (l : List α)
    (acc : List β) :
    l.foldl (fun scheduled x => scheduled ++ [f x]) acc = acc ++ l.map f := by
  induction l generalizing acc with
  | nil => simp
  | cons x xs ih => simp [ih]

/-- `placeOrdersEtoro` schedules exactly the per-order requests. -/
lemma placeOrdersEtoro_eq_map (pair : String) (newOrders : List NewOrder) :
    placeOrdersEtoro pair newOrders = newOrders.map (etoroPlaceRequest pair) := by
  simpa [placeOrdersEtoro] using
    foldl_append_singleton (etoroPlaceRequest pair) newOrders []

/-- `placeOrdersKraken` schedules exactly the per-order requests. -/
lemma placeOrdersKraken_eq_map (pairPrecision : ℕ) (pair : String)
    (newOrders : List NewOrder) :
    placeOrdersKraken pairPrecision pair newOrders =
      newOrders.map (krakenPlaceRequest pairPrecision pair) := by
  simpa [placeOrdersKraken] using
    foldl_append_singleton (krakenPlaceRequest pairPrecision pair) newOrders []

/-- Claim C4: a batch of N generated orders is scheduled as exactly N
submission tasks; the i-th task is bound at scheduling time to the i-th
order's own fields (no task aliases the last order of the batch); and
executing the scheduled tasks attempts every one of them, whatever the
venue's per-request failure verdicts are. -/
theorem place_orders_bind_each_order (pairPrecision : ℕ)
    (pairK pairE : String) (newOrders : List NewOrder)
    (execE : EtoroPlaceRequest → Bool) (execK : KrakenPlaceRequest → Bool) :
    (placeOrdersEtoro pairE newOrders).length = newOrders.length ∧
    (placeOrdersKraken pairPrecision pairK newOrders).length =
      newOrders.length ∧
    (∀ i, i < newOrders.length →
      (placeOrdersEtoro pairE newOrders)[i]? =
        (newOrders[i]?).map (etoroPlaceRequest pairE) ∧
      (placeOrdersKraken pairPrecision pairK newOrders)[i]? =
        (newOrders[i]?).map (krakenPlaceRequest pairPrecision pairK)) ∧
    (runScheduledTasks execE (placeOrdersEtoro pairE newOrders)).map
      Prod.fst = placeOrdersEtoro pairE newOrders ∧
    (runScheduledTasks execK (placeOrdersKraken pairPrecision pairK
      newOrders)).map Prod.fst =
      placeOrdersKraken pairPrecision pairK newOrders := by
  refine ⟨?_, ?_, ?_, ?_, ?_⟩
  · simp [placeOrdersEtoro_eq_map]
  · simp [placeOrdersKraken_eq_map]
  · intro i _hi
    constructor
    · simp [placeOrdersEtoro_eq_map, List.getElem?_map]
    · simp [placeOrdersKraken_eq_map, List.getElem?_map]
  · simp [runScheduledTasks, Function.comp_def]
  · simp [runScheduledTasks, Function.comp_def]

/-- A first concrete generated order. -/
def newOrder1 : NewOrder :=
  { isSell := true, price := 12, payAmount := 1, buyAmount := 12 }

/-- A second, different concrete generated order. -/
def newOrder2 : NewOrder :=
  { isSell := false, price := 9, payAmount := 9, buyAmount := 1 }

/-- Witness for C4 on a concrete two-order batch: two tasks are
scheduled and the first task carries the first order's request (so it
does not alias the second, last order of the batch). -/
theorem place_orders_bind_each_order_witness :
    (placeOrdersEtoro "eth_dai" [newOrder1, newOrder2]).length = 2 ∧
    (placeOrdersEtoro "eth_dai" [newOrder1, newOrder2])[0]? =
      some (etoroPlaceRequest "eth_dai" newOrder1) ∧
    (placeOrdersKraken 2 "ETHDAI" [newOrder1, newOrder2])[0]? =
      some (krakenPlaceRequest 2 "ETHDAI" newOrder1) := by
  have h := place_orders_bind_each_order 2 "ETHDAI" "eth_dai"
    [newOrder1, newOrder2] (fun _ => false) (fun _ => false)
  have h0 := h.2.2.1 0 (by decide)
  exact ⟨h.1, by simpa using h0.1, by simpa using h0.2⟩

/-! ## C9: side partitioning of the snapshot's orders -/

/-- Claim C9: `our_buy_orders` and `our_sell_orders` partition any order
list by the `is_sell` field alone: an order of the list belongs to the
sell result exactly when its side is sell and to the buy result exactly
when it is not, never to both, both results draw from the list, and
their concatenation is a permutation of the list. -/
theorem side_partition (os : List Order) :
    (∀ o ∈ os, (o ∈ ourSellOrders os ↔ o.isSell = true) ∧
      (o ∈ ourBuyOrders os ↔ o.isSell = false)) ∧
    (∀ o ∈ os, ¬(o ∈ ourSellOrders os ∧ o ∈ ourBuyOrders os)) ∧
    (∀ o ∈ ourSellOrders os, o ∈ os) ∧
    (∀ o ∈ ourBuyOrders os, o ∈ os) ∧
    List.Perm (ourBuyOrders os ++ ourSellOrders os) os := by
  refine ⟨?_, ?_, ?_, ?_, ?_⟩
  · intro o ho
    constructor
    · simpa [ourSellOrders, List.mem_filter] using fun _ => ho
    · simpa [ourBuyOrders, List.mem_filter] using fun _ => ho
  · intro o _ho hoo
    rcases hoo with ⟨hs, hb⟩
    rw [ourSellOrders, List.mem_filter] at hs
    rw [ourBuyOrders, List.mem_filter] at hb
    simp [hs.2] at hb
  · intro o ho
    exact (List.mem_filter.mp ho).1
  · intro o ho
    exact (List.mem_filter.mp ho).1
  · have h := List.filter_append_perm (fun o : Order => o.isSell) os
    exact List.Perm.trans List.perm_append_comm h

/-- Witness for C9 on a concrete two-sided book. -/
theorem side_partition_witness :
    orderSell1 ∈ ourSellOrders [orderBuy1, orderSell1] ∧
    orderBuy1 ∈ ourBuyOrders [orderBuy1, orderSell1] ∧
    List.Perm (ourBuyOrders [orderBuy1, orderSell1] ++
      ourSellOrders [orderBuy1, orderSell1]) [orderBuy1, orderSell1] := by
  have h := side_partition [orderBuy1, orderSell1]
  exact ⟨(h.1 orderSell1 (by decide)).1.mpr (by decide),
    (h.1 orderBuy1 (by decide)).2.mpr (by decide), h.2.2.2.2⟩

/-! ## C5, C7, C8: the pool rebalancing tick -/

/-- Case analysis of one `place_liquidity` tick: it either attempts a
single deposit (deviation below threshold, gas left after the reserve,
empty position), or a single full withdrawal (deviation above threshold,
positive position), or nothing. -/
lemma placeLiquidity_eq (pct feed uni eth tok : ℚ) (liq : ℤ) :
    (|feed - uni| < feed * pct / 100 ∧ 0 < eth - 2 / 100 ∧ liq = 0 ∧
      placeLiquidity pct feed uni eth tok liq =
        [PoolAction.add (min (eth - 2 / 100) (tok * 95 / 100 / uni))]) ∨
    (feed * pct / 100 < |feed - uni| ∧ 0 < liq ∧
      placeLiquidity pct feed uni eth tok liq = [PoolAction.remove liq]) ∨
    placeLiquidity pct feed uni eth tok liq = [] := by
  by_cases h1 : |feed - uni| < feed * pct / 100
  · have h3 : ¬ feed * pct / 100 < |feed - uni| := lt_asymm h1
    by_cases h2 : 0 < eth - 2 / 100 ∧ liq = 0
    · exact Or.inl ⟨h1, h2.1, h2.2, by simp [placeLiquidity, h1, h2, h3]⟩
    · refine Or.inr (Or.inr ?_)
      simp [placeLiquidity, h1, h3]
      intro he hl
      exact h2 ⟨by linarith, hl⟩
  · by_cases h3 : feed * pct / 100 < |feed - uni|
    · by_cases h4 : 0 < liq
      · exact Or.inr (Or.inl ⟨h3, h4, by simp [placeLiquidity, h1, h3, h4]⟩)
      · exact Or.inr (Or.inr (by simp [placeLiquidity, h1, h3, h4]))
    · exact Or.inr (Or.inr (by simp [placeLiquidity, h1, h3]))

/-- Claim C5: a deposit is attempted only when the deviation of the pool
price from the reference price is below the threshold
`feed_price * percentage / 100` and the liquidity-token position is
zero; a withdrawal only when the deviation exceeds the threshold and the
position is positive; at exact equality, neither. -/
theorem pool_threshold_actions (pct feed uni eth tok : ℚ) (liq : ℤ) :
    (∀ e, PoolAction.add e ∈ placeLiquidity pct feed uni eth tok liq →
      |feed - uni| < feed * pct / 100 ∧ liq = 0) ∧
    (∀ t, PoolAction.remove t ∈ placeLiquidity pct feed uni eth tok liq →
      feed * pct / 100 < |feed - uni| ∧ 0 < liq) ∧
    (|feed - uni| = feed * pct / 100 →
      placeLiquidity pct feed uni eth tok liq = []) := by
  rcases placeLiquidity_eq pct feed uni eth tok liq with
      ⟨h1, h2, h3, heq⟩ | ⟨h1, h2, heq⟩ | heq
  · refine ⟨?_, ?_, ?_⟩
    · intro e he
      exact ⟨h1, h3⟩
    · intro t ht
      rw [heq] at ht
      simp at ht
    · intro h0
      rw [h0] at h1
      exact absurd h1 (lt_irrefl _)
  · refine ⟨?_, ?_, ?_⟩
    · intro e he
      rw [heq] at he
      simp at he
    · intro t ht
      exact ⟨h1, h2⟩
    · intro h0
      rw [h0] at h1
      exact absurd h1 (lt_irrefl _)
  · refine ⟨?_, ?_, ?_⟩
    · intro e he
      rw [heq] at he
      simp at he
    · intro t ht
      rw [heq] at ht
      simp at ht
    · intro _
      exact heq

/-- Witness for C5: the spec's example tick (reference price 100, pool
price 102, threshold percentage 1) with a position of 7 liquidity
tokens attempts a withdrawal, and the theorem yields that the threshold
is below the deviation and the position was positive. -/
theorem pool_threshold_actions_witness :
    (100 : ℚ) * 1 / 100 < |(100 : ℚ) - 102| ∧ (0 : ℤ) < 7 :=
  (pool_threshold_actions 1 100 102 10 1000 7).2.1 7
    (by norm_num [placeLiquidity])

/-- Claim C7: every deposit the rebalancing tick attempts is of exactly
`min(base_balance - 0.02, 0.95 * quote_balance / pool_price)` ETH, the
gas reserve being the fixed 0.02 ETH. -/
theorem pool_deposit_amount (pct feed uni eth tok : ℚ) (liq : ℤ) (e : ℚ)
    (h : PoolAction.add e ∈ placeLiquidity pct feed uni eth tok liq) :
    e = min (eth - 2 / 100) (95 / 100 * tok / uni) := by
  rcases placeLiquidity_eq pct feed uni eth tok liq with
      ⟨_h1, _h2, _h3, heq⟩ | ⟨_h1, _h2, heq⟩ | heq <;> rw [heq] at h <;> simp at h
  rw [h]
  congr 1
  ring

/-- Witness for C7: with base balance 10, quote balance 1000 and pool
price 100, the attempted deposit is 9.5 ETH, the quote-side bound. -/
theorem pool_deposit_amount_witness :
    (19 / 2 : ℚ) = min ((10 : ℚ) - 2 / 100) (95 / 100 * 1000 / 100) :=
  pool_deposit_amount 1 100 100 10 1000 0 (19 / 2)
    (by norm_num [placeLiquidity, min_def])

/-- Claim C8: every withdrawal the rebalancing tick attempts removes
exactly the full current liquidity-token balance, and it is the tick's
only withdrawal — there is no partial-withdrawal path. -/
theorem pool_withdraw_full (pct feed uni eth tok : ℚ) (liq t : ℤ)
    (h : PoolAction.remove t ∈ placeLiquidity pct feed uni eth tok liq) :
    t = liq ∧
    removeActions (placeLiquidity pct feed uni eth tok liq) = [liq] := by
  rcases placeLiquidity_eq pct feed uni eth tok liq with
      ⟨_h1, _h2, _h3, heq⟩ | ⟨_h1, _h2, heq⟩ | heq <;> rw [heq] at h <;> simp at h
  exact ⟨h, by rw [heq]; simp [removeActions]⟩

/-- Witness for C8: at the spec's withdrawal tick with a position of 7
liquidity tokens, the tick withdraws exactly those 7 tokens. -/
theorem pool_withdraw_full_witness :
    (7 : ℤ) = 7 ∧
    removeActions (placeLiquidity 1 100 102 10 1000 7) = [7] :=
  pool_withdraw_full 1 100 102 10 1000 7 7 (by norm_num [placeLiquidity])

/-! ## C10: the Kraken pair split -/

/-- Claim C10: the Kraken keeper splits the pair argument at a fixed
offset of three characters — `token_sell` is the first three characters,
`token_buy` the remainder, their concatenation is the original pair —
so the split recovers the base symbol exactly when that symbol has
three characters. -/
theorem kraken_pair_split (p base quote : String) :
    tokenSellKraken p ++ tokenBuyKraken p = p ∧
    (tokenSellKraken p).data = p.data.take 3 ∧
    (tokenBuyKraken p).data = p.data.drop 3 ∧
    (base.data.length = 3 →
      tokenSellKraken (base ++ quote) = base ∧
      tokenBuyKraken (base ++ quote) = quote) ∧
    (quote.data ≠ [] → base.data.length ≠ 3 →
      tokenSellKraken (base ++ quote) ≠ base) := by
  refine ⟨?_, rfl, rfl, ?_, ?_⟩
  · cases p with
    | mk data =>
      show String.mk (data.take 3 ++ data.drop 3) = String.mk data
      rw [List.take_append_drop]
  · intro h3
    constructor
    · show String.mk ((base ++ quote).data.take 3) = base
      rw [String.data_append, ← h3, List.take_left]
    · show String.mk ((base ++ quote).data.drop 3) = quote
      rw [String.data_append, ← h3, List.drop_left]
  · intro hq h3 heq
    have hd := congrArg String.data heq
    simp only [tokenSellKraken, String.data_append] at hd
    have hlen := congrArg List.length hd
    rw [List.length_take, List.length_append] at hlen
    have hql : 0 < quote.data.length := List.length_pos.mpr hq
    rw [Nat.min_def] at hlen
    split_ifs at hlen <;> omega

/-- Witness for C10 on the pair `"ethdai"`: the split yields `"eth"` and
`"dai"` and concatenates back to the pair. -/
theorem kraken_pair_split_witness :
    tokenSellKraken "ethdai" ++ tokenBuyKraken "ethdai" = "ethdai" ∧
    tokenSellKraken ("eth" ++ "dai") = "eth" ∧
    tokenBuyKraken ("eth" ++ "dai") = "dai" := by
  have h := kraken_pair_split "ethdai" "eth" "dai"
  have h4 := h.2.2.2.1 (by decide)
  exact ⟨h.1, h4.1, h4.2⟩

end MarketMakerKeeper
